import Mathlib

/-!
Shallow embedding of the regression/report pipeline of the Qm717_Stocks
repository (src/masco_2025.py and its caller src/app.py), together with
theorems settling the frozen claims about it.

Modelling conventions used throughout:

* Float values are modelled as rationals (`ℚ`); a missing value (pandas/numpy
  `NaN`) is modelled as `none` in `Option ℚ`.  The transcendental `np.log` is
  kept abstract: every pipeline definition takes the logarithm as an explicit
  function parameter `lg : ℚ → ℚ`, and every theorem about the pipeline either
  holds for all `lg` or concerns data (row counts, month indices, sample sizes)
  that provably do not depend on `lg`.
* Calendar dates are modelled by their month number (months since an epoch, a
  `ℕ`); daily rows carry their month, and the order of the input list is the
  date order.  Pandas' `resample("ME").last()` produces one row per calendar
  month between the first and last month present, taking per column the last
  non-missing observation of the month (an empty month yields a missing value);
  `resample_last` below implements exactly that.
* `statsmodels` OLS computes its coefficients through the Moore–Penrose
  pseudoinverse; when the Gram matrix `Xᵀ * X` is invertible this equals
  `(Xᵀ * X)⁻¹ * Xᵀ * y`, which is what `coefs` computes (`matInv` is the
  computable rational matrix inverse, equal to Mathlib's `Matrix.inv`).  All
  value-level theorems about fitted coefficients assume that invertible case;
  structural facts (list lengths, `nobs`) hold for every input.
-/

namespace Masco

open scoped Matrix

/-- One daily (or monthly) row of the price/return table built in `load_data`
(src/masco_2025.py lines 32–52): the target ticker column and the three factor
columns `SP500`, `VW`, `TYX`.  `none` models a missing value (`NaN`). -/
structure PriceRow where
  stk : Option ℚ
  sp : Option ℚ
  vw : Option ℚ
  tyx : Option ℚ
deriving DecidableEq

/-- A row with no missing value in any column: the rows pandas `dropna()`
keeps. -/
def rowComplete (r : PriceRow) : Bool :=
  r.stk.isSome && r.sp.isSome && r.vw.isSome && r.tyx.isSome

/-- pandas `DataFrame.dropna()` (listwise deletion), used in `load_data` both
on the daily table (line 44) and on the return table (line 50). -/
def dropna (rows : List (ℕ × PriceRow)) : List (ℕ × PriceRow) :=
  rows.filter (fun x => rowComplete x.2)

/-- The last non-missing value of one column within a month, matching pandas
`resample("ME").last()` which skips missing values column by column. -/
def colLast (f : PriceRow → Option ℚ) (rows : List PriceRow) : Option ℚ :=
  rows.foldl (fun acc r => match f r with | some v => some v | none => acc) none

/-- pandas `raw.resample("ME").last()` (src/masco_2025.py line 47): one row per
calendar month from the first month present to the last, each column holding
the last non-missing observation within that month (`none` for an empty
month). -/
def resample_last (rows : List (ℕ × PriceRow)) : List (ℕ × PriceRow) :=
  match rows with
  | [] => []
  | r0 :: rest =>
    let lo := rest.foldl (fun a x => min a x.1) r0.1
    let hi := rest.foldl (fun a x => max a x.1) r0.1
    (List.range (hi + 1 - lo)).map (fun k =>
      let m := lo + k
      let inMonth := ((r0 :: rest).filter (fun x => x.1 == m)).map Prod.snd
      (m, ⟨colLast (fun r => r.stk) inMonth, colLast (fun r => r.sp) inMonth,
           colLast (fun r => r.vw) inMonth, colLast (fun r => r.tyx) inMonth⟩))

/-- One cell of `np.log(monthly_prices / monthly_prices.shift(1))`: the log of
the ratio of the current and previous month-end price, missing whenever either
price is missing (NaN propagation of numpy division and log). -/
def cellRet (lg : ℚ → ℚ) (c p : Option ℚ) : Option ℚ :=
  match c, p with
  | some a, some b => some (lg (a / b))
  | _, _ => none

/-- One row of the monthly log-return table, column by column. -/
def retRow (lg : ℚ → ℚ) (cur prev : PriceRow) : PriceRow :=
  ⟨cellRet lg cur.stk prev.stk, cellRet lg cur.sp prev.sp,
   cellRet lg cur.vw prev.vw, cellRet lg cur.tyx prev.tyx⟩

/-- The all-missing row: what a row divided by `shift(1)`'s leading `NaN`
row becomes. -/
def noneRow : PriceRow := ⟨none, none, none, none⟩

/-- `np.log(monthly_prices / monthly_prices.shift(1))` (src/masco_2025.py line
50, before the final `dropna`): every row of the monthly table paired with its
predecessor (the first row pairs with the all-`NaN` shifted row). -/
def month_log_returns (lg : ℚ → ℚ) (m : List (ℕ × PriceRow)) :
    List (ℕ × PriceRow) :=
  List.zipWith (fun cur prev => (cur.1, retRow lg cur.2 prev)) m
    (noneRow :: m.map Prod.snd)

/-- `load_data` (src/masco_2025.py lines 32–52) after the external
`yf.download(...)["Adj Close"]` call: takes the fetched daily table `raw` and
returns the aligned monthly log-return table.  The code performs, in order:
`raw.dropna()` on the daily rows, `resample("ME").last()`,
`np.log(monthly / monthly.shift(1))`, and a final `.dropna()`.  There is no
row-count check and no error value: the function is total. -/
def load_data (lg : ℚ → ℚ) (raw : List (ℕ × PriceRow)) : List (ℕ × PriceRow) :=
  dropna (month_log_returns lg (resample_last (dropna raw)))

/-- The monthly log-return step as the spec's §4.1 words it: returns are formed
for every month after the first ("the first period has no prior value and is
dropped"), each from the month and its predecessor in the resampled table. -/
def spec_log_returns (lg : ℚ → ℚ) (m : List (ℕ × PriceRow)) :
    List (ℕ × PriceRow) :=
  match m with
  | [] => []
  | p :: rest =>
    List.zipWith (fun cur prev => (cur.1, retRow lg cur.2 prev.2)) rest (p :: rest)

/-- The return-series pipeline exactly as the spec's §4.1 / claim C2 list it:
resample to month-end (last observation per calendar month), log returns with
the first period dropped, then listwise deletion — and nothing else (in
particular no deletion of daily rows before resampling).  This definition
follows the spec's words, to be compared with `load_data`, which follows the
code. -/
def spec_return_series (lg : ℚ → ℚ) (raw : List (ℕ × PriceRow)) :
    List (ℕ × PriceRow) :=
  dropna (spec_log_returns lg (resample_last raw))

/-- The numeric summary of one fitted OLS model that the repository reads off a
`statsmodels` fit: sample size (`nobs`), coefficient vector (`params`), the sum
of squared residuals, the centered total sum of squares, and `rsquared`. -/
structure OLSResultQ where
  nobs : ℕ
  params : List ℚ
  ssr : ℚ
  sst : ℚ
  rsquared : ℚ
deriving DecidableEq

/-- Computable inverse of a square rational matrix (`det⁻¹ • adjugate`); equal
to Mathlib's `Matrix.inv` over `ℚ`, and the zero matrix when the matrix is
singular. -/
def matInv {k : ℕ} (A : Matrix (Fin k) (Fin k) ℚ) : Matrix (Fin k) (Fin k) ℚ :=
  A.det⁻¹ • A.adjugate

/-- The OLS coefficient vector `(Xᵀ X)⁻¹ Xᵀ y`.  `statsmodels` computes the
coefficients through the Moore–Penrose pseudoinverse, which equals this
whenever `Xᵀ * X` is invertible (the case every value-level theorem below
assumes); on a singular design both are finite values and the theorems below
use only fields that do not depend on them. -/
def coefs {n k : ℕ} (X : Matrix (Fin n) (Fin k) ℚ) (y : Fin n → ℚ) :
    Fin k → ℚ :=
  matInv (Xᵀ * X) *ᵥ (Xᵀ *ᵥ y)

/-- One `sm.OLS(y, X).fit()` call as read by the repository: coefficients by
least squares, `ssr` the sum of squared residuals, `sst` the centered total sum
of squares (the model always contains a constant), `rsquared = 1 - ssr/sst`,
`nobs = n`.  The fit is total: `statsmodels` raises no error on a
rank-deficient design. -/
def olsFit {n k : ℕ} (X : Matrix (Fin n) (Fin k) ℚ) (y : Fin n → ℚ) :
    OLSResultQ :=
  let b := coefs X y
  let ssr := ∑ i, (y i - (X *ᵥ b) i) ^ 2
  let ybar := (∑ i, y i) / (n : ℚ)
  let sst := ∑ i, (y i - ybar) ^ 2
  ⟨n, List.ofFn b, ssr, sst, 1 - ssr / sst⟩

/-- The aligned return sample as `run_regressions` consumes it: one row per
month-end, holding (target, SP500, VW, TYX) returns. -/
abbrev RTable : Type := List (ℚ × ℚ × ℚ × ℚ)

/-- Target-return column `y = returns[stock_ticker]`. -/
def tgtv (t : RTable) : Fin t.length → ℚ := fun i => (t.get i).1

/-- `returns["SP500"]` column. -/
def spv (t : RTable) : Fin t.length → ℚ := fun i => (t.get i).2.1

/-- `returns["VW"]` column. -/
def vwv (t : RTable) : Fin t.length → ℚ := fun i => (t.get i).2.2.1

/-- `returns["TYX"]` column. -/
def tyxv (t : RTable) : Fin t.length → ℚ := fun i => (t.get i).2.2.2

/-- Design matrix of regression 1, `sm.add_constant(returns["SP500"])`.
`sm.add_constant` (default `has_constant='skip'`) adds the constant column
whenever the factor column is not itself constant; a constant factor column
makes the Gram matrix of the model-5 design below singular, so every theorem
assuming that Gram matrix invertible lies in the regime where this embedding
matches `statsmodels` exactly. -/
def X1 (t : RTable) : Matrix (Fin t.length) (Fin 2) ℚ :=
  Matrix.of fun i => ![1, spv t i]

/-- Design matrix of regression 2, `sm.add_constant(returns["VW"])`. -/
def X2 (t : RTable) : Matrix (Fin t.length) (Fin 2) ℚ :=
  Matrix.of fun i => ![1, vwv t i]

/-- Design matrix of regression 3, `sm.add_constant(returns["TYX"])`. -/
def X3 (t : RTable) : Matrix (Fin t.length) (Fin 2) ℚ :=
  Matrix.of fun i => ![1, tyxv t i]

/-- Design matrix of regression 4, `sm.add_constant(returns[["SP500","VW"]])`. -/
def X4 (t : RTable) : Matrix (Fin t.length) (Fin 3) ℚ :=
  Matrix.of fun i => ![1, spv t i, vwv t i]

/-- Design matrix of regression 5,
`sm.add_constant(returns[["SP500","VW","TYX"]])`. -/
def X5 (t : RTable) : Matrix (Fin t.length) (Fin 4) ℚ :=
  Matrix.of fun i => ![1, spv t i, vwv t i, tyxv t i]

/-- `reg1 = sm.OLS(y, X1).fit()` (src/masco_2025.py lines 60–61). -/
def reg1 (t : RTable) : OLSResultQ := olsFit (X1 t) (tgtv t)

/-- `reg2 = sm.OLS(y, X2).fit()` (lines 64–65). -/
def reg2 (t : RTable) : OLSResultQ := olsFit (X2 t) (tgtv t)

/-- `reg3 = sm.OLS(y, X3).fit()` (lines 68–69). -/
def reg3 (t : RTable) : OLSResultQ := olsFit (X3 t) (tgtv t)

/-- `reg4 = sm.OLS(y, X4).fit()` (lines 72–73). -/
def reg4 (t : RTable) : OLSResultQ := olsFit (X4 t) (tgtv t)

/-- `reg5 = sm.OLS(y, X5).fit()` (lines 76–77). -/
def reg5 (t : RTable) : OLSResultQ := olsFit (X5 t) (tgtv t)

/-- `run_regressions` (src/masco_2025.py lines 55–79): fits the five fixed
models on the same aligned sample and returns them in order; it contains no
rank check, no try/except and no per-model error marking. -/
def run_regressions (t : RTable) : List OLSResultQ :=
  [reg1 t, reg2 t, reg3 t, reg4 t, reg5 t]

/-- Extract the numeric row of a complete return row (all entries present once
a row survived `dropna`). -/
def toQuad (r : PriceRow) : ℚ × ℚ × ℚ × ℚ :=
  (r.stk.getD 0, r.sp.getD 0, r.vw.getD 0, r.tyx.getD 0)

/-- The caller's pipeline in src/app.py (lines 189–209): `load_data` followed
unconditionally by `run_regressions` — there is no row-count guard and no error
branch between the two. -/
def app_pipeline (lg : ℚ → ℚ) (raw : List (ℕ × PriceRow)) : List OLSResultQ :=
  run_regressions ((load_data lg raw).map (fun x => toQuad x.2))

/-- The four canonical variables of the regression table, in the fixed column
order of `create_regression_table_dataframe` (`'const'`, `'SP500'`, `'VW'`,
`'TYX'`). -/
inductive RVar
  | const
  | SP500
  | VW
  | TYX
deriving DecidableEq

/-- What the two table builders read off one `statsmodels` fit object: the set
of variables of the model (`reg.params.index`), and per variable the
coefficient (`reg.params`), standard error (`reg.bse`) and two-sided p-value
(`reg.pvalues`), plus `reg.mse_resid` and `reg.rsquared`. -/
structure FitStats where
  vars : List RVar
  coef : RVar → ℚ
  se : RVar → ℚ
  pval : RVar → ℚ
  mse_resid : ℚ
  rsquared : ℚ

/-- The significance marker of src/masco_2025.py line 90:
`'***' if pval < 0.01 else '**' if pval < 0.05 else '*' if pval < 0.1 else ''`. -/
def sig_stars (p : ℚ) : String :=
  if p < 1/100 then "***" else if p < 1/20 then "**" else if p < 1/10 then "*" else ""

/-- Round a rational to the nearest integer, ties to even — the rounding of
Python's fixed-point float formatting, applied here to exact decimal inputs. -/
def rhe (q : ℚ) : ℤ :=
  let f := ⌊q⌋
  let r := q - f
  if r < 1/2 then f else if 1/2 < r then f + 1 else if f % 2 = 0 then f else f + 1

/-- Zero-pad the fractional part to four digits. -/
def pad4 (m : ℕ) : String :=
  let s := Nat.repr m
  String.mk (List.replicate (4 - s.length) '0') ++ s

/-- Python's `f"{x:.4f}"` on an exact decimal value: four fractional digits,
rounding half to even, the sign taken from the input. -/
def fmt4 (x : ℚ) : String :=
  let n : ℕ := (rhe (|x| * 10000)).toNat
  let sign := if x < 0 then "-" else ""
  sign ++ Nat.repr (n / 10000) ++ "." ++ pad4 (n % 10000)

/-- `create_cell_value` of `create_regression_table_dataframe`
(src/masco_2025.py lines 85–93): the empty string when the variable is not in
the model, else `f"{val:.4f}{sig} ({se:.4f})"`. -/
def create_cell_value (reg : FitStats) (v : RVar) : String :=
  if v ∈ reg.vars then
    fmt4 (reg.coef v) ++ sig_stars (reg.pval v) ++ " (" ++ fmt4 (reg.se v) ++ ")"
  else ""

/-- The second, verbatim copy of `create_cell_value` inside
`generate_pdf_report` (src/masco_2025.py lines 302–311). -/
def create_cell_value_pdf (reg : FitStats) (v : RVar) : String :=
  if v ∈ reg.vars then
    fmt4 (reg.coef v) ++ sig_stars (reg.pval v) ++ " (" ++ fmt4 (reg.se v) ++ ")"
  else ""

/-- The `'Regression'` column entry `f'({i})'`. -/
def idx_cell (i : ℕ) : String := "(" ++ Nat.repr i ++ ")"

/-- The combined `'S,R²'` cell of the on-screen table (lines 107–109):
`f"{resid_se:.4f}, {r_squared:.4f}"` with `resid_se = np.sqrt(reg.mse_resid)`.
`np.sqrt` is transcendental and is passed in as the function `sq`. -/
def s_r2_cell (sq : ℚ → ℚ) (reg : FitStats) : String :=
  fmt4 (sq reg.mse_resid) ++ ", " ++ fmt4 reg.rsquared

/-- The verbatim copy of the `'S,R²'` cell computation inside
`generate_pdf_report` (lines 333–335). -/
def s_r2_cell_pdf (sq : ℚ → ℚ) (reg : FitStats) : String :=
  fmt4 (sq reg.mse_resid) ++ ", " ++ fmt4 reg.rsquared

/-- One row of the on-screen DataFrame (lines 98–104 and 109), in its column
order `Regression, Int., S&P 500, Val.-Wgtd, 30 Yr Treas., S,R²`. -/
def screen_row (sq : ℚ → ℚ) (i : ℕ) (reg : FitStats) : List String :=
  [idx_cell i, create_cell_value reg RVar.const, create_cell_value reg RVar.SP500,
   create_cell_value reg RVar.VW, create_cell_value reg RVar.TYX, s_r2_cell sq reg]

/-- The on-screen rows built by `for i, reg in enumerate(regressions, 1)`. -/
def screen_rows (sq : ℚ → ℚ) : ℕ → List FitStats → List (List String)
  | _, [] => []
  | i, r :: rs => screen_row sq i r :: screen_rows sq (i + 1) rs

/-- `create_regression_table_dataframe` (src/masco_2025.py lines 82–115): the
data rows of the on-screen regression table, in model order starting at 1. -/
def create_regression_table_dataframe (sq : ℚ → ℚ) (regs : List FitStats) :
    List (List String) :=
  screen_rows sq 1 regs

/-- One row of the PDF table (src/masco_2025.py lines 317–337). -/
def pdf_row (sq : ℚ → ℚ) (i : ℕ) (reg : FitStats) : List String :=
  [idx_cell i, create_cell_value_pdf reg RVar.const,
   create_cell_value_pdf reg RVar.SP500, create_cell_value_pdf reg RVar.VW,
   create_cell_value_pdf reg RVar.TYX, s_r2_cell_pdf sq reg]

/-- The PDF rows built by `for i, reg in enumerate(regressions, 1)`. -/
def pdf_rows (sq : ℚ → ℚ) : ℕ → List FitStats → List (List String)
  | _, [] => []
  | i, r :: rs => pdf_row sq i r :: pdf_rows sq (i + 1) rs

/-- The full `table_data` of `generate_pdf_report` (lines 314–337): the header
row followed by one row per regression in model order. -/
def pdf_table_data (sq : ℚ → ℚ) (regs : List FitStats) : List (List String) :=
  ["Regression", "Int.", "S&P 500", "Val.-Wgtd", "30 Yr Treas.", "S,R²"]
    :: pdf_rows sq 1 regs

/-- Arithmetic mean `data.mean()` (rational model of the float mean; for the
empty list ℚ's total division yields the junk value `0 / 0 = 0`, which the
callers below never reach). -/
def data_mean (xs : List ℚ) : ℚ := xs.sum / xs.length

/-- The location returned by `scipy.stats.norm.fit(data)` (used at
src/masco_2025.py line 170 and lines 482–486): the sample mean `data.mean()`.
On empty input `np.mean` yields `NaN` (modelled `none`) and no exception is
raised. -/
def norm_fit_mu (xs : List ℚ) : Option ℚ :=
  if xs.isEmpty then none else some (data_mean xs)

/-- The square of the scale returned by `scipy.stats.norm.fit(data)`: the
maximum-likelihood population variance `((data - loc)**2).mean()`, with
divisor `n`.  The reported `sigma` is its square root; `sigma = 0` iff this
variance is `0`.  On empty input the result is `NaN` (modelled `none`), not an
error. -/
def norm_fit_var (xs : List ℚ) : Option ℚ :=
  if xs.isEmpty then none
  else some ((xs.map (fun x => (x - data_mean xs) ^ 2)).sum / xs.length)

/-- The square of pandas `Series.std()` (default `ddof=1`), printed in the CDF
statistics section of the report (src/masco_2025.py lines 552–557): the sample
variance with divisor `n - 1`, `NaN` (modelled `none`) for fewer than two
observations. -/
def pd_std_sq (xs : List ℚ) : Option ℚ :=
  if xs.length < 2 then none
  else some ((xs.map (fun x => (x - data_mean xs) ^ 2)).sum / ((xs.length : ℚ) - 1))

/-- `np.sort` on a 1-d array: ascending sort. -/
def np_sort (xs : List ℚ) : List ℚ := List.insertionSort (· ≤ ·) xs

/-- `np.linspace(0, 1, n)`: for `n ≥ 2` the values `i / (n-1)` for
`i = 0, …, n-1`; for `n = 1` the single value `0.0` (numpy's documented
special case — no division by zero); empty for `n = 0`. -/
def np_linspace01 (n : ℕ) : List ℚ :=
  if n = 0 then []
  else if n = 1 then [0]
  else (List.range n).map (fun i : ℕ => (i : ℚ) / ((n : ℚ) - 1))

/-- The empirical CDF points computed in `plot_cdf` (src/masco_2025.py lines
197–203): the input sorted ascending, paired with the cumulative probabilities
`np.linspace(0, 1, n)`. -/
def empirical_cdf (xs : List ℚ) : List (ℚ × ℚ) :=
  (np_sort xs).zip (np_linspace01 xs.length)

/-- Concrete fetched daily table for claim C1: one fully valid day in each of
two consecutive months, so exactly one aligned monthly return row remains. -/
def exC1 : List (ℕ × PriceRow) :=
  [(1, ⟨some 1, some 1, some 1, some 1⟩), (2, ⟨some 2, some 2, some 2, some 2⟩)]

/-- Concrete fetched daily table for claim C2: in month 1 every column is
observed on some day but no single day observes all four columns, so the daily
`dropna()` of the code deletes the whole month while the spec's step list
keeps it. -/
def exC2 : List (ℕ × PriceRow) :=
  [(1, ⟨some 1, some 1, some 1, none⟩), (1, ⟨none, some 1, some 1, some 1⟩),
   (2, ⟨some 2, some 2, some 2, some 2⟩), (3, ⟨some 4, some 4, some 4, some 4⟩)]

/-- Concrete aligned sample for claim C3 with `SP500` and `VW` perfectly
collinear (identical columns), so the designs of models 4 and 5 are
rank-deficient. -/
def tsing : RTable := [(1, 1, 1, 2), (2, 2, 2, 5), (3, 3, 3, 7)]

/-- Concrete aligned sample for claim C7's witness: four observations whose
full design matrix `X5` is invertible and whose target is not constant. -/
def texample : RTable := [(0, 0, 0, 0), (1, 1, 0, 0), (2, 0, 1, 0), (4, 0, 0, 1)]

/-- Concrete regression-result record for claim C4's round-trip: coefficient
`1.23456`, standard error `0.04321`, p-value `0.002`, on a model containing
the intercept and `SP500` but not `TYX`. -/
def exReg : FitStats :=
  ⟨[RVar.const, RVar.SP500], fun _ => 123456/100000, fun _ => 4321/100000,
   fun _ => 1/500, 0, 0⟩

/-! ## Support lemmas -/

lemma cellRet_isSome (lg : ℚ → ℚ) (c p : Option ℚ) :
    (cellRet lg c p).isSome = (c.isSome && p.isSome) := by
  cases c <;> cases p <;> rfl

lemma cellRet_none_right (lg : ℚ → ℚ) (c : Option ℚ) :
    cellRet lg c none = none := by
  cases c <;> rfl

/-- Whether a return row is complete does not depend on the logarithm
function: only the missingness pattern of the two price rows matters. -/
lemma rowComplete_retRow (lg lg' : ℚ → ℚ) (cur prev : PriceRow) :
    rowComplete (retRow lg cur prev) = rowComplete (retRow lg' cur prev) := by
  simp [rowComplete, retRow, cellRet_isSome]

lemma rowComplete_retRow_noneRow (lg : ℚ → ℚ) (cur : PriceRow) :
    rowComplete (retRow lg cur noneRow) = false := by
  simp [retRow, noneRow, cellRet_none_right, rowComplete]

/-- The NaN-shift formulation of the code (`np.log(m / m.shift(1))` then
`dropna`) agrees with the spec's formulation (first period dropped, then
listwise deletion) on every monthly table. -/
lemma dropna_month_log_returns_eq_spec (lg : ℚ → ℚ) (m : List (ℕ × PriceRow)) :
    dropna (month_log_returns lg m) = dropna (spec_log_returns lg m) := by
  cases m with
  | nil => rfl
  | cons p rest =>
    show dropna ((p.1, retRow lg p.2 noneRow)
        :: List.zipWith (fun cur prev => (cur.1, retRow lg cur.2 prev)) rest
            (p.2 :: rest.map Prod.snd)) = _
    have hhead : rowComplete (retRow lg p.2 noneRow) = false :=
      rowComplete_retRow_noneRow lg p.2
    have hzip : List.zipWith (fun cur prev => (cur.1, retRow lg cur.2 prev)) rest
        (p.2 :: rest.map Prod.snd)
        = List.zipWith (fun cur prev => (cur.1, retRow lg cur.2 prev.2)) rest
            (p :: rest) := by
      have : p.2 :: rest.map Prod.snd = (p :: rest).map Prod.snd := rfl
      rw [this, List.zipWith_map_right]
    simp only [dropna, List.filter_cons, hhead, spec_log_returns, hzip]
    rfl

/-- The month indices of the rows `load_data` keeps do not depend on the
logarithm function. -/
lemma filter_retRows_months_irrel (lg lg' : ℚ → ℚ) :
    ∀ (m : List (ℕ × PriceRow)) (prevs : List PriceRow),
    ((List.zipWith (fun cur prev => (cur.1, retRow lg cur.2 prev)) m prevs).filter
        (fun x => rowComplete x.2)).map Prod.fst
    = ((List.zipWith (fun cur prev => (cur.1, retRow lg' cur.2 prev)) m prevs).filter
        (fun x => rowComplete x.2)).map Prod.fst := by
  intro m
  induction m with
  | nil => intro prevs; rfl
  | cons c cs ih =>
    intro prevs
    cases prevs with
    | nil => rfl
    | cons q qs =>
      simp only [List.zipWith_cons_cons, List.filter_cons]
      rw [rowComplete_retRow lg lg' c.2 q]
      cases h : rowComplete (retRow lg' c.2 q) <;> simp [h, ih qs]

lemma load_data_months_irrel (lg lg' : ℚ → ℚ) (raw : List (ℕ × PriceRow)) :
    (load_data lg raw).map Prod.fst = (load_data lg' raw).map Prod.fst := by
  unfold load_data month_log_returns dropna
  exact filter_retRows_months_irrel lg lg' _ _

lemma spec_return_series_months_irrel (lg lg' : ℚ → ℚ)
    (raw : List (ℕ × PriceRow)) :
    (spec_return_series lg raw).map Prod.fst
    = (spec_return_series lg' raw).map Prod.fst := by
  unfold spec_return_series
  generalize resample_last raw = m
  cases m with
  | nil => rfl
  | cons p rest =>
    have e : ∀ l : ℚ → ℚ,
        List.zipWith (fun cur prev => (cur.1, retRow l cur.2 prev.2)) rest (p :: rest)
        = List.zipWith (fun cur prev => (cur.1, retRow l cur.2 prev)) rest
            ((p :: rest).map Prod.snd) :=
      fun l => (List.zipWith_map_right rest (p :: rest) Prod.snd
        (fun cur prev => (cur.1, retRow l cur.2 prev))).symm
    simp only [spec_log_returns, dropna]
    rw [e lg, e lg']
    exact filter_retRows_months_irrel lg lg' _ _

/-- Gram determinant of model 4's design on `tsing` vanishes: `SP500` and `VW`
are identical columns there. -/
lemma tsingX4_det : ((X4 tsing)ᵀ * X4 tsing).det = 0 := by
  have h : X4 tsing = !![(1:ℚ),1,1;1,2,2;1,3,3] := by decide
  rw [h, Matrix.det_mul, Matrix.det_transpose]
  norm_num [Matrix.det_fin_three]

/-! ## Claim C1 -/

/-- C1 (amended): `load_data` applies no minimum-row validation and defines no
`DataUnavailable` error: even when fewer than 2 aligned return rows remain it
returns the short series normally, and the caller (src/app.py lines 189–209)
proceeds unconditionally to fit all five regressions on it, each reporting the
short sample size. -/
theorem C1_no_row_check_caller_proceeds (lg : ℚ → ℚ) (raw : List (ℕ × PriceRow))
    (_h : (load_data lg raw).length < 2) :
    (app_pipeline lg raw).map OLSResultQ.nobs
    = List.replicate 5 (load_data lg raw).length := by
  simp [app_pipeline, run_regressions, reg1, reg2, reg3, reg4, reg5, olsFit,
    List.replicate]

/-- C1 witness: on the concrete fetch `exC1` only one aligned row remains,
and the pipeline still fits five models on that single observation. -/
theorem C1_witness :
    (load_data (fun x : ℚ => x) exC1).length < 2
    ∧ (app_pipeline (fun x : ℚ => x) exC1).map OLSResultQ.nobs
      = List.replicate 5 (load_data (fun x : ℚ => x) exC1).length :=
  ⟨by decide, C1_no_row_check_caller_proceeds (fun x => x) exC1 (by decide)⟩

/-- C1 counterexample: `load_data` on `exC1` leaves exactly one valid row —
fewer than 2 — yet it returns that table with no failure, and the caller's
pipeline still produces all five regression results, so the claimed
`DataUnavailable` failure and the stop before regression do not happen.  (The
month indices kept, hence these lengths, do not depend on the logarithm
function: `load_data_months_irrel`.) -/
theorem C1_counterexample :
    (load_data (fun x : ℚ => x) exC1).length = 1
    ∧ (app_pipeline (fun x : ℚ => x) exC1).length = 5 :=
  ⟨rfl, rfl⟩

/-! ## Claim C2 -/

/-- C2 (amended): the return series is produced by the claimed steps only
after one further first step — listwise deletion of the *daily* rows
(`raw.dropna()`, src/masco_2025.py line 44) before resampling.  With that step
prepended, the code's pipeline equals the spec's step list exactly, for every
fetched table and every logarithm function. -/
theorem C2_steps_after_daily_dropna (lg : ℚ → ℚ) (raw : List (ℕ × PriceRow)) :
    load_data lg raw = spec_return_series lg (dropna raw) := by
  unfold load_data spec_return_series
  exact dropna_month_log_returns_eq_spec lg (resample_last (dropna raw))

/-- C2 counterexample: on `exC2` the spec's step list (resample, log returns,
listwise deletion — with no daily-row deletion) keeps the return rows of
months 2 and 3, while the code keeps only month 3: the code's extra daily
`dropna()` deletes both partial daily rows of month 1 and with them the whole
month.  The kept months do not depend on the logarithm function
(`load_data_months_irrel`, `spec_return_series_months_irrel`), so the two
pipelines differ for the real `np.log` as well. -/
theorem C2_counterexample :
    (spec_return_series (fun x : ℚ => x) exC2).map Prod.fst = [2, 3]
    ∧ (load_data (fun x : ℚ => x) exC2).map Prod.fst = [3]
    ∧ (spec_return_series (fun x : ℚ => x) exC2).length
      ≠ (load_data (fun x : ℚ => x) exC2).length :=
  ⟨rfl, rfl, by decide⟩

/-! ## Claim C3 -/

/-- C3 (amended): `run_regressions` performs no rank-deficiency check and has
no `SingularModel` error or per-model failure marking: even when a design
matrix is rank-deficient (here model 4's Gram determinant vanishes), it
returns five ordinary results, one per model, all fitted on the full sample
(`statsmodels` fits a singular design through the pseudoinverse without
raising). -/
theorem C3_no_singular_model_error (t : RTable)
    (_h : ((X4 t)ᵀ * X4 t).det = 0) :
    (run_regressions t).map OLSResultQ.nobs = List.replicate 5 t.length := by
  simp [run_regressions, reg1, reg2, reg3, reg4, reg5, olsFit, List.replicate]

/-- C3 witness: on `tsing` (SP500 and VW identical), model 4's design is
rank-deficient and the engine still returns five ordinary results. -/
theorem C3_witness :
    ((X4 tsing)ᵀ * X4 tsing).det = 0
    ∧ (run_regressions tsing).map OLSResultQ.nobs = List.replicate 5 tsing.length :=
  ⟨tsingX4_det, C3_no_singular_model_error tsing tsingX4_det⟩

/-- C3 counterexample: on the concrete sample `tsing` model 4's design matrix
is rank-deficient, yet `run_regressions` neither fails nor marks any slot
invalid: it returns an ordinary result for every one of the five models, each
carrying the full sample size — contradicting the claimed `SingularModel`
failure for the offending model. -/
theorem C3_counterexample :
    ((X4 tsing)ᵀ * X4 tsing).det = 0
    ∧ (run_regressions tsing).map OLSResultQ.nobs = [3, 3, 3, 3, 3] :=
  ⟨tsingX4_det, rfl⟩

/-! ## Claim C6 -/

/-- C6: all five fitted models report the same observation count — the length
of the shared aligned sample — for every return table. -/
theorem C6_nobs_identical (t : RTable) :
    (run_regressions t).map OLSResultQ.nobs = List.replicate 5 t.length := by
  simp [run_regressions, reg1, reg2, reg3, reg4, reg5, olsFit, List.replicate]

/-! ## Claim C4 -/

/-- C4: a table cell is the empty string when the variable is not in the
model, and otherwise exactly `"{coef:.4f}{stars} ({se:.4f})"`; the stars follow
the `p<0.01 / p<0.05 / p<0.10` thresholds; and the concrete record with
coefficient `1.23456`, standard error `0.04321` and p-value `0.002` formats to
the literal string `"1.2346*** (0.0432)"`. -/
theorem C4_cell_format :
    (∀ (reg : FitStats) (v : RVar), create_cell_value reg v
      = if v ∈ reg.vars then
          fmt4 (reg.coef v) ++ sig_stars (reg.pval v) ++ " (" ++ fmt4 (reg.se v) ++ ")"
        else "")
    ∧ sig_stars (1/200) = "***" ∧ sig_stars (3/100) = "**"
    ∧ sig_stars (2/25) = "*" ∧ sig_stars (1/2) = ""
    ∧ create_cell_value exReg RVar.SP500 = "1.2346*** (0.0432)"
    ∧ create_cell_value exReg RVar.TYX = "" := by
  have hfa : fmt4 (123456/100000) = "1.2346" := by
    have ha : |(123456/100000 : ℚ)| = 123456/100000 := abs_of_pos (by norm_num)
    have h0 : (123456/100000 : ℚ) * 10000 = 61728/5 := by norm_num
    have h1 : ⌊(61728/5 : ℚ)⌋ = 12345 := by norm_num
    have h2 : rhe (|(123456/100000 : ℚ)| * 10000) = 12346 := by
      simp only [rhe, ha, h0, h1]; norm_num
    have h3 : ¬((123456/100000 : ℚ) < 0) := by norm_num
    simp only [fmt4, h2, if_neg h3]
    decide
  have hfb : fmt4 (4321/100000) = "0.0432" := by
    have ha : |(4321/100000 : ℚ)| = 4321/100000 := abs_of_pos (by norm_num)
    have h0 : (4321/100000 : ℚ) * 10000 = 4321/10 := by norm_num
    have h1 : ⌊(4321/10 : ℚ)⌋ = 432 := by norm_num
    have h2 : rhe (|(4321/100000 : ℚ)| * 10000) = 432 := by
      simp only [rhe, ha, h0, h1]; norm_num
    have h3 : ¬((4321/100000 : ℚ) < 0) := by norm_num
    simp only [fmt4, h2, if_neg h3]
    decide
  have hsg : sig_stars (1/500) = "***" := by
    simp only [sig_stars]; norm_num
  refine ⟨fun reg v => rfl, ?_, ?_, ?_, ?_, ?_, ?_⟩
  · simp only [sig_stars]; norm_num
  · simp only [sig_stars]; norm_num
  · simp only [sig_stars]; norm_num
  · simp only [sig_stars]; norm_num
  · show (if RVar.SP500 ∈ exReg.vars then
        fmt4 (exReg.coef RVar.SP500) ++ sig_stars (exReg.pval RVar.SP500)
          ++ " (" ++ fmt4 (exReg.se RVar.SP500) ++ ")"
      else "") = "1.2346*** (0.0432)"
    rw [if_pos (by decide)]
    show fmt4 (123456/100000) ++ sig_stars (1/500) ++ " (" ++ fmt4 (4321/100000) ++ ")"
      = "1.2346*** (0.0432)"
    rw [hfa, hfb, hsg]
    decide
  · show (if RVar.TYX ∈ exReg.vars then
        fmt4 (exReg.coef RVar.TYX) ++ sig_stars (exReg.pval RVar.TYX)
          ++ " (" ++ fmt4 (exReg.se RVar.TYX) ++ ")"
      else "") = ""
    rw [if_neg (by decide)]

/-! ## Claim C8 -/

/-- C8 (amended): `norm.fit` returns the maximum-likelihood estimates — the
mean, and the population variance with divisor `n` (its square root is the
reported `sigma`); on `n` identical values the variance, hence `sigma`, is `0`;
and on `[0, 1]` the variance is `1/4` (the population value, not the sample
value `1/2`).  On a zero-length input it does not fail with an `EmptySeries`
error: it returns `NaN` for both estimates. -/
theorem C8_fit_normal_population :
    (∀ xs : List ℚ, xs ≠ [] →
      norm_fit_mu xs = some (xs.sum / (xs.length : ℚ))
      ∧ norm_fit_var xs
        = some ((xs.map (fun x => (x - data_mean xs) ^ 2)).sum / (xs.length : ℚ)))
    ∧ (∀ (c : ℚ) (m : ℕ), m ≠ 0 → norm_fit_var (List.replicate m c) = some 0)
    ∧ norm_fit_var [0, 1] = some (1/4) := by
  refine ⟨fun xs hxs => ?_, fun c m hm => ?_, ?_⟩
  · have h : xs.isEmpty = false := by
      cases xs with
      | nil => exact absurd rfl hxs
      | cons a l => rfl
    exact ⟨by simp [norm_fit_mu, h, data_mean], by simp [norm_fit_var, h]⟩
  · have h : (List.replicate m c).isEmpty = false := by
      cases m with
      | zero => exact absurd rfl hm
      | succ k => rfl
    have hmean : data_mean (List.replicate m c) = c := by
      have hm' : (m : ℚ) ≠ 0 := Nat.cast_ne_zero.mpr hm
      simp [data_mean, List.sum_replicate, nsmul_eq_mul]
      field_simp
    simp [norm_fit_var, h, hmean]
  · have hmean : data_mean [0, 1] = 1/2 := by
      norm_num [data_mean]
    simp [norm_fit_var, hmean]
    norm_num

/-- C8 counterexample: on the empty series `norm.fit` neither raises an
`EmptySeries` error nor any other: `np.mean`/`np.sqrt` of the empty array give
`NaN` (modelled `none`), and the pair `(NaN, NaN)` is returned as an ordinary
value. -/
theorem C8_counterexample :
    norm_fit_mu ([] : List ℚ) = none ∧ norm_fit_var ([] : List ℚ) = none :=
  ⟨rfl, rfl⟩

/-! ## Claim C9 -/

/-- The PDF row builder and the on-screen row builder agree for every starting
index and result list: the two `create_cell_value` copies and the two `S,R²`
cell computations are character-for-character the same code. -/
lemma pdf_rows_eq_screen_rows (sq : ℚ → ℚ) :
    ∀ (i : ℕ) (regs : List FitStats), pdf_rows sq i regs = screen_rows sq i regs := by
  intro i regs
  induction regs generalizing i with
  | nil => rfl
  | cons r rs ih => simp only [pdf_rows, screen_rows, ih]; rfl

/-- C9: for any given regression results, the PDF table is exactly the fixed
header row followed by the on-screen table's rows: every model/variable cell
and every combined `S,R²` cell is byte-for-byte identical between the two
renderers, and both list the models in order 1–5 (the order of the input
list, enumerated from 1). -/
theorem C9_tables_byte_identical (sq : ℚ → ℚ) (regs : List FitStats) :
    pdf_table_data sq regs
    = ["Regression", "Int.", "S&P 500", "Val.-Wgtd", "30 Yr Treas.", "S,R²"]
      :: create_regression_table_dataframe sq regs := by
  simp only [pdf_table_data, create_regression_table_dataframe,
    pdf_rows_eq_screen_rows]

/-! ## Claim C10 -/

/-- C10: the report summarizes the same target series with two different
standard-deviation conventions — the normal-distribution section's `sigma` is
the square root of the population variance (divisor `n`, from `norm.fit`),
the CDF section's `Std Dev` the square root of the sample variance (pandas
`.std()`, divisor `n-1`) — and for every non-constant series with at least two
observations the sample variance is strictly larger, so every strictly
monotone square root sends them to distinct values with the CDF section's
strictly larger. -/
theorem C10_two_std_conventions (xs : List ℚ) (h2 : 2 ≤ xs.length)
    (hnc : ∃ a ∈ xs, ∃ b ∈ xs, a ≠ b) :
    ∃ pv sv : ℚ, norm_fit_var xs = some pv ∧ pd_std_sq xs = some sv ∧ pv < sv
      ∧ ∀ sq : ℚ → ℚ, StrictMonoOn sq (Set.Ici 0) → sq pv < sq sv := by
  obtain ⟨a, ha, b, hb, hab⟩ := hnc
  have hne : xs.isEmpty = false := by
    cases xs with
    | nil => simp at ha
    | cons c l => rfl
  have hn2 : ¬(xs.length < 2) := not_lt.mpr h2
  have hnq : (2 : ℚ) ≤ (xs.length : ℚ) := by exact_mod_cast h2
  set μ := data_mean xs with hμ
  set S := (xs.map (fun x => (x - μ) ^ 2)).sum with hS
  have hSnonneg : ∀ z ∈ xs.map (fun x => (x - μ) ^ 2), 0 ≤ z := by
    intro z hz
    obtain ⟨w, _, rfl⟩ := List.mem_map.mp hz
    positivity
  have hSpos : 0 < S := by
    have key : ∃ w ∈ xs, w ≠ μ := by
      by_cases haμ : a = μ
      · exact ⟨b, hb, by rw [← haμ]; exact fun e => hab e.symm⟩
      · exact ⟨a, ha, haμ⟩
    obtain ⟨w, hw, hwμ⟩ := key
    have hmem : (w - μ) ^ 2 ∈ xs.map (fun x => (x - μ) ^ 2) :=
      List.mem_map_of_mem _ hw
    have hpos : 0 < (w - μ) ^ 2 :=
      lt_of_le_of_ne (sq_nonneg _) (Ne.symm (pow_ne_zero 2 (sub_ne_zero.mpr hwμ)))
    exact lt_of_lt_of_le hpos (List.single_le_sum hSnonneg _ hmem)
  refine ⟨S / xs.length, S / ((xs.length : ℚ) - 1), ?_, ?_, ?_, ?_⟩
  · simp [norm_fit_var, hne, hμ, hS]
  · simp [pd_std_sq, hn2, hμ, hS]
  · exact div_lt_div_of_pos_left hSpos (by linarith) (by linarith)
  · intro sq hsq
    have h1 : (0:ℚ) ≤ S / xs.length := div_nonneg hSpos.le (by linarith)
    have h2' : (0:ℚ) ≤ S / ((xs.length : ℚ) - 1) := div_nonneg hSpos.le (by linarith)
    exact hsq h1 h2' (div_lt_div_of_pos_left hSpos (by linarith) (by linarith))

/-- C10 witness: on the concrete series `[0, 1]` the two variances are `1/4`
(population) and `1/2` (sample), the latter strictly larger. -/
theorem C10_witness :
    2 ≤ ([0, 1] : List ℚ).length
    ∧ ∃ pv sv : ℚ, norm_fit_var [0, 1] = some pv ∧ pd_std_sq [0, 1] = some sv
        ∧ pv < sv := by
  have h := C10_two_std_conventions [0, 1] (by rfl)
    ⟨0, by simp, 1, by simp, by norm_num⟩
  obtain ⟨pv, sv, h1, h2, h3, _⟩ := h
  exact ⟨by rfl, pv, sv, h1, h2, h3⟩

/-! ## Claim C5 -/

lemma np_linspace01_length (n : ℕ) : (np_linspace01 n).length = n := by
  by_cases h0 : n = 0
  · rw [np_linspace01, if_pos h0, h0]
    rfl
  · by_cases h1 : n = 1
    · rw [np_linspace01, if_neg h0, if_pos h1, h1]
      rfl
    · rw [np_linspace01, if_neg h0, if_neg h1, List.length_map, List.length_range]

lemma np_sort_length (xs : List ℚ) : (np_sort xs).length = xs.length :=
  List.length_insertionSort _ xs

lemma ecdf_fst (xs : List ℚ) : (empirical_cdf xs).map Prod.fst = np_sort xs :=
  List.map_fst_zip _ _ (by rw [np_sort_length, np_linspace01_length])

lemma ecdf_snd (xs : List ℚ) :
    (empirical_cdf xs).map Prod.snd = np_linspace01 xs.length :=
  List.map_snd_zip _ _ (by rw [np_sort_length, np_linspace01_length])

lemma linspace_den_pos {n : ℕ} (hn : 1 < n) : (0 : ℚ) < (n : ℚ) - 1 := by
  have h2 : (2 : ℚ) ≤ (n : ℚ) := by exact_mod_cast hn
  linarith

lemma linspace_get {n : ℕ} (hn : 1 < n) {i : ℕ} (hi : i < n) :
    (np_linspace01 n).get? i = some ((i : ℚ) / ((n : ℚ) - 1)) := by
  have h0 : ¬(n = 0) := by omega
  have h1 : ¬(n = 1) := by omega
  rw [np_linspace01, if_neg h0, if_neg h1, List.get?_map, List.get?_range hi]
  rfl

lemma linspace_sorted (n : ℕ) : List.Sorted (· ≤ ·) (np_linspace01 n) := by
  by_cases h0 : n = 0
  · rw [np_linspace01, if_pos h0]
    exact List.sorted_nil
  · by_cases h1 : n = 1
    · rw [np_linspace01, if_neg h0, if_pos h1]
      exact List.sorted_singleton 0
    · have hn : 1 < n := by omega
      have hden := linspace_den_pos (n := n) hn
      rw [np_linspace01, if_neg h0, if_neg h1, List.Sorted, List.pairwise_map]
      refine (List.pairwise_lt_range n).imp ?_
      intro a b hab
      exact (div_le_div_right hden).mpr (by exact_mod_cast hab.le)

lemma linspace_bounds (n : ℕ) : ∀ pr ∈ np_linspace01 n, 0 ≤ pr ∧ pr ≤ 1 := by
  by_cases h0 : n = 0
  · rw [np_linspace01, if_pos h0]
    intro pr hpr
    simp at hpr
  · by_cases h1 : n = 1
    · rw [np_linspace01, if_neg h0, if_pos h1]
      intro pr hpr
      rw [List.mem_singleton] at hpr
      subst hpr
      norm_num
    · have hn : 1 < n := by omega
      have hden := linspace_den_pos (n := n) hn
      rw [np_linspace01, if_neg h0, if_neg h1]
      intro pr hpr
      obtain ⟨i, hi, rfl⟩ := List.mem_map.mp hpr
      have hi' : i < n := List.mem_range.mp hi
      have hcast : (i : ℚ) ≤ (n : ℚ) - 1 := by
        have : (i : ℚ) + 1 ≤ (n : ℚ) := by exact_mod_cast hi'
        linarith
      exact ⟨div_nonneg (by positivity) hden.le, (div_le_one hden).mpr hcast⟩

/-- C5: `empirical_cdf` sorts its input ascending (the values are the sorted
permutation of the input) and zips it with the probabilities
`np.linspace(0,1,n)`; for `n > 1` the `i`-th probability is `i/(n-1)`, the
probabilities are non-decreasing, lie in `[0,1]`, and start at `0` and end at
`1`; and for `n = 1` the single point carries probability `0` with no
division-by-zero failure. -/
theorem C5_empirical_cdf_shape (xs : List ℚ) :
    ((empirical_cdf xs).map Prod.fst).Perm xs
    ∧ List.Sorted (· ≤ ·) ((empirical_cdf xs).map Prod.fst)
    ∧ (empirical_cdf xs).map Prod.snd = np_linspace01 xs.length
    ∧ (∀ pr ∈ (empirical_cdf xs).map Prod.snd, 0 ≤ pr ∧ pr ≤ 1)
    ∧ List.Sorted (· ≤ ·) ((empirical_cdf xs).map Prod.snd)
    ∧ (1 < xs.length → ∀ i < xs.length,
        ((empirical_cdf xs).map Prod.snd).get? i
          = some ((i : ℚ) / ((xs.length : ℚ) - 1)))
    ∧ (1 < xs.length →
        ((empirical_cdf xs).map Prod.snd).get? 0 = some 0
        ∧ ((empirical_cdf xs).map Prod.snd).get? (xs.length - 1) = some 1)
    ∧ (xs.length = 1 → (empirical_cdf xs).map Prod.snd = [0]) := by
  refine ⟨?_, ?_, ecdf_snd xs, ?_, ?_, ?_, ?_, ?_⟩
  · rw [ecdf_fst]
    exact List.perm_insertionSort _ xs
  · rw [ecdf_fst]
    exact List.sorted_insertionSort _ xs
  · rw [ecdf_snd]
    exact linspace_bounds xs.length
  · rw [ecdf_snd]
    exact linspace_sorted xs.length
  · intro hn i hi
    rw [ecdf_snd]
    exact linspace_get hn hi
  · intro hn
    constructor
    · rw [ecdf_snd, linspace_get hn (by omega)]
      norm_num
    · rw [ecdf_snd, linspace_get hn (by omega : xs.length - 1 < xs.length)]
      have hcast : ((xs.length - 1 : ℕ) : ℚ) = (xs.length : ℚ) - 1 := by
        have : 1 ≤ xs.length := by omega
        push_cast [Nat.cast_sub this]
        ring
      rw [hcast, div_self (ne_of_gt (linspace_den_pos hn))]
  · intro h1
    rw [ecdf_snd, h1]
    rfl

/-- C5 witness: on the concrete series `[3, 1, 2]` the CDF points are the
sorted values `[1, 2, 3]` with probabilities `[0, 1/2, 1]`. -/
theorem C5_witness :
    (empirical_cdf [3, 1, 2]).map Prod.fst = [1, 2, 3]
    ∧ (empirical_cdf [3, 1, 2]).map Prod.snd = [0, 1/2, 1] := by
  constructor
  · rw [ecdf_fst]
    norm_num [np_sort, List.insertionSort, List.orderedInsert]
  · have h := (C5_empirical_cdf_shape [3, 1, 2]).2.2.1
    rw [h]
    norm_num [np_linspace01, List.range_succ]

/-! ## Claim C7 -/

lemma matInv_eq_inv {k : ℕ} (A : Matrix (Fin k) (Fin k) ℚ) : matInv A = A⁻¹ := by
  rw [matInv, Matrix.inv_def, Ring.inverse_eq_inv']

lemma olsFit_ssr {n k : ℕ} (X : Matrix (Fin n) (Fin k) ℚ) (y : Fin n → ℚ) :
    (olsFit X y).ssr = ∑ i, (y i - (X *ᵥ coefs X y) i) ^ 2 := rfl

lemma olsFit_rsquared {n k : ℕ} (X : Matrix (Fin n) (Fin k) ℚ) (y : Fin n → ℚ) :
    (olsFit X y).rsquared = 1 - (olsFit X y).ssr / (olsFit X y).sst := rfl

/-- The first-order (normal) equations of least squares: when the Gram matrix
is invertible the residual vector of the computed coefficients is orthogonal
to the column space. -/
lemma normal_equations {n k : ℕ} (X : Matrix (Fin n) (Fin k) ℚ) (y : Fin n → ℚ)
    (h : IsUnit ((Xᵀ * X)).det) :
    Xᵀ *ᵥ (y - X *ᵥ coefs X y) = 0 := by
  have hc : coefs X y = (Xᵀ * X)⁻¹ *ᵥ (Xᵀ *ᵥ y) := by rw [coefs, matInv_eq_inv]
  rw [Matrix.mulVec_sub, hc, Matrix.mulVec_mulVec, Matrix.mulVec_mulVec,
    Matrix.mul_nonsing_inv _ h, Matrix.one_mulVec, sub_self]

/-- Least-squares optimality: among all coefficient vectors, the one computed
from the normal equations minimizes the sum of squared residuals. -/
lemma ssr_optimal {n k : ℕ} (X : Matrix (Fin n) (Fin k) ℚ) (y : Fin n → ℚ)
    (h : IsUnit ((Xᵀ * X)).det) (b : Fin k → ℚ) :
    (olsFit X y).ssr ≤ ∑ i, (y i - (X *ᵥ b) i) ^ 2 := by
  set β := coefs X y with hβ
  have hNE : Xᵀ *ᵥ (y - X *ᵥ β) = 0 := normal_equations X y h
  have hdecomp : ∀ i, y i - (X *ᵥ b) i
      = (y i - (X *ᵥ β) i) + (X *ᵥ (β - b)) i := by
    intro i
    have hlin : (X *ᵥ (β - b)) i = (X *ᵥ β) i - (X *ᵥ b) i := by
      rw [Matrix.mulVec_sub]
      rfl
    rw [hlin]
    ring
  have expand : ∑ i, (y i - (X *ᵥ b) i) ^ 2
      = (∑ i, (y i - (X *ᵥ β) i) ^ 2)
        + (2 * ∑ i, (y i - (X *ᵥ β) i) * ((X *ᵥ (β - b)) i))
        + (∑ i, ((X *ᵥ (β - b)) i) ^ 2) := by
    rw [Finset.mul_sum, ← Finset.sum_add_distrib, ← Finset.sum_add_distrib]
    exact Finset.sum_congr rfl (fun i _ => by rw [hdecomp i]; ring)
  have hcross : ∑ i, (y i - (X *ᵥ β) i) * ((X *ᵥ (β - b)) i) = 0 := by
    have h1 : ∑ i, (y i - (X *ᵥ β) i) * ((X *ᵥ (β - b)) i)
        = (y - X *ᵥ β) ⬝ᵥ (X *ᵥ (β - b)) := rfl
    rw [h1, Matrix.dotProduct_mulVec, ← Matrix.mulVec_transpose, hNE,
      Matrix.zero_dotProduct]
  have hquad : 0 ≤ ∑ i, ((X *ᵥ (β - b)) i) ^ 2 :=
    Finset.sum_nonneg (fun i _ => sq_nonneg _)
  rw [olsFit_ssr, ← hβ]
  rw [expand, hcross]
  linarith

lemma X5_pad_sp (t : RTable) (b : Fin 2 → ℚ) (i : Fin t.length) :
    (X5 t *ᵥ ![b 0, b 1, 0, 0]) i = (X1 t *ᵥ b) i := by
  simp [X5, X1, Matrix.mulVec, Matrix.dotProduct, Fin.sum_univ_succ]

lemma X5_pad_vw (t : RTable) (b : Fin 2 → ℚ) (i : Fin t.length) :
    (X5 t *ᵥ ![b 0, 0, b 1, 0]) i = (X2 t *ᵥ b) i := by
  simp [X5, X2, Matrix.mulVec, Matrix.dotProduct, Fin.sum_univ_succ]

lemma X5_pad_tyx (t : RTable) (b : Fin 2 → ℚ) (i : Fin t.length) :
    (X5 t *ᵥ ![b 0, 0, 0, b 1]) i = (X3 t *ᵥ b) i := by
  simp [X5, X3, Matrix.mulVec, Matrix.dotProduct, Fin.sum_univ_succ]

lemma X5_pad_spvw (t : RTable) (b : Fin 3 → ℚ) (i : Fin t.length) :
    (X5 t *ᵥ ![b 0, b 1, b 2, 0]) i = (X4 t *ᵥ b) i := by
  simp [X5, X4, Matrix.mulVec, Matrix.dotProduct, Fin.sum_univ_succ]

/-- C7: models 1–4 are nested in model 5 and all five are fit on the same
sample, so when model 5's design has an invertible Gram matrix (the model
"fits successfully") and the shared centered total sum of squares is positive,
model 5's R² is at least the R² of every model the engine returns. -/
theorem C7_full_model_r2_max (t : RTable)
    (hdet : IsUnit ((X5 t)ᵀ * X5 t).det)
    (hsst : 0 < (reg5 t).sst) :
    ∀ r ∈ run_regressions t, r.rsquared ≤ (reg5 t).rsquared := by
  have main : ∀ s : ℚ, (reg5 t).ssr ≤ s →
      1 - s / (reg5 t).sst ≤ (reg5 t).rsquared := by
    intro s hs
    have hdiv : (reg5 t).ssr / (reg5 t).sst ≤ s / (reg5 t).sst :=
      (div_le_div_iff_of_pos_right hsst).mpr hs
    have hr5 : (reg5 t).rsquared = 1 - (reg5 t).ssr / (reg5 t).sst := rfl
    rw [hr5]
    linarith
  intro r hr
  simp only [run_regressions, List.mem_cons, List.not_mem_nil, or_false] at hr
  rcases hr with h | h | h | h | h <;> subst h
  · have hopt := ssr_optimal (X5 t) (tgtv t) hdet
      ![coefs (X1 t) (tgtv t) 0, coefs (X1 t) (tgtv t) 1, 0, 0]
    have heq : ∑ i, (tgtv t i
        - (X5 t *ᵥ ![coefs (X1 t) (tgtv t) 0, coefs (X1 t) (tgtv t) 1, 0, 0]) i) ^ 2
        = (reg1 t).ssr :=
      Finset.sum_congr rfl (fun i _ => by rw [X5_pad_sp])
    exact main (reg1 t).ssr (by rw [← heq]; exact hopt)
  · have hopt := ssr_optimal (X5 t) (tgtv t) hdet
      ![coefs (X2 t) (tgtv t) 0, 0, coefs (X2 t) (tgtv t) 1, 0]
    have heq : ∑ i, (tgtv t i
        - (X5 t *ᵥ ![coefs (X2 t) (tgtv t) 0, 0, coefs (X2 t) (tgtv t) 1, 0]) i) ^ 2
        = (reg2 t).ssr :=
      Finset.sum_congr rfl (fun i _ => by rw [X5_pad_vw])
    exact main (reg2 t).ssr (by rw [← heq]; exact hopt)
  · have hopt := ssr_optimal (X5 t) (tgtv t) hdet
      ![coefs (X3 t) (tgtv t) 0, 0, 0, coefs (X3 t) (tgtv t) 1]
    have heq : ∑ i, (tgtv t i
        - (X5 t *ᵥ ![coefs (X3 t) (tgtv t) 0, 0, 0, coefs (X3 t) (tgtv t) 1]) i) ^ 2
        = (reg3 t).ssr :=
      Finset.sum_congr rfl (fun i _ => by rw [X5_pad_tyx])
    exact main (reg3 t).ssr (by rw [← heq]; exact hopt)
  · have hopt := ssr_optimal (X5 t) (tgtv t) hdet
      ![coefs (X4 t) (tgtv t) 0, coefs (X4 t) (tgtv t) 1, coefs (X4 t) (tgtv t) 2, 0]
    have heq : ∑ i, (tgtv t i
        - (X5 t *ᵥ ![coefs (X4 t) (tgtv t) 0, coefs (X4 t) (tgtv t) 1,
            coefs (X4 t) (tgtv t) 2, 0]) i) ^ 2
        = (reg4 t).ssr :=
      Finset.sum_congr rfl (fun i _ => by rw [X5_pad_spvw])
    exact main (reg4 t).ssr (by rw [← heq]; exact hopt)
  · exact main (reg5 t).ssr le_rfl

lemma texample_X5 : X5 texample = !![(1:ℚ),0,0,0;1,1,0,0;1,0,1,0;1,0,0,1] := by
  decide

lemma texample_det : IsUnit ((X5 texample)ᵀ * X5 texample).det := by
  rw [Matrix.det_mul, Matrix.det_transpose, texample_X5]
  have h : (!![(1:ℚ),0,0,0;1,1,0,0;1,0,1,0;1,0,0,1]).det = 1 := by
    norm_num [Matrix.det_succ_row_zero, Fin.sum_univ_succ]
  rw [h]
  norm_num

lemma texample_sst : 0 < (reg5 texample).sst := by
  have h : (reg5 texample).sst
      = ∑ i : Fin 4, (tgtv texample i
          - (∑ j : Fin 4, tgtv texample j) / ((texample.length : ℕ) : ℚ)) ^ 2 := rfl
  have hlen : ((texample.length : ℕ) : ℚ) = 4 := by norm_num [texample]
  have h0 : tgtv texample (0 : Fin 4) = 0 := rfl
  have h1 : tgtv texample (1 : Fin 4) = 1 := rfl
  have h2 : tgtv texample (2 : Fin 4) = 2 := rfl
  have h3 : tgtv texample (3 : Fin 4) = 4 := rfl
  rw [h, hlen, Fin.sum_univ_four, Fin.sum_univ_four, h0, h1, h2, h3]
  norm_num

/-- C7 witness: on the concrete sample `texample` model 5's design is
invertible and the target is not constant, and model 1's R² is at most model
5's. -/
theorem C7_witness :
    IsUnit ((X5 texample)ᵀ * X5 texample).det
    ∧ 0 < (reg5 texample).sst
    ∧ (reg1 texample).rsquared ≤ (reg5 texample).rsquared :=
  ⟨texample_det, texample_sst,
    C7_full_model_r2_max texample texample_det texample_sst (reg1 texample)
      (by simp [run_regressions])⟩

end Masco
